import Mathlib

/-!
Shallow embedding of the core query engine of the address-finder backend
(`src/map/addresses/map-addresses.service.ts`, second service revision,
together with the request DTOs under `src/map/addresses/dto/`).

Modelling conventions:
* JavaScript strings are `List Char`; JavaScript numbers (IEEE doubles) are
  exact rationals `ℚ`, extended to `JsNum` (rationals plus signed infinity
  and NaN) where `parseFloat` and request validation need the distinction.
* The MongoDB collection is a `List MapAddressDoc`; a `find` with a filter,
  a sort and a limit is `List.filter`, a stable insertion sort and
  `List.take`.  MongoDB ObjectId record keys are modelled by their numeric
  value (`ℕ`), with the string decoding of cursors made explicit.
* The `string-similarity` dependency's `compareTwoStrings` (Sørensen–Dice
  coefficient over character bigrams) is embedded exactly, including its
  whitespace stripping and its special cases.
-/

namespace MapAddresses

/-- The whitespace characters matched by JavaScript `\s`, `trim` and the
`replace(/\s+/g, '')` step of `compareTwoStrings`, identified by code point:
space 32, tab 9, line feed 10, carriage return 13, vertical tab 11, form
feed 12 (further Unicode space code points are not produced by any input we
consider). -/
def jsIsWs (c : Char) : Bool :=
  c.toNat = 32 || c.toNat = 9 || c.toNat = 10 || c.toNat = 13 ||
    c.toNat = 11 || c.toNat = 12

/-- JavaScript `String.prototype.trim`: drop leading and trailing
whitespace. -/
def jsTrim (s : List Char) : List Char :=
  ((s.dropWhile jsIsWs).reverse.dropWhile jsIsWs).reverse

/-- JavaScript `String.prototype.toLowerCase`, character by character
(ASCII range, which is all the service's lowercasing relies on). -/
def toLowerL (s : List Char) : List Char :=
  s.map Char.toLower

/-- JavaScript `String.prototype.toUpperCase`, character by character. -/
def toUpperL (s : List Char) : List Char :=
  s.map Char.toUpper

/-- Remove every whitespace character: `replace(/\s+/g, '')`. -/
def stripWs (s : List Char) : List Char :=
  s.filter (fun c => !jsIsWs c)

/-- Maximal runs of characters satisfying `keep`.  `runsBy keep s` models a
JavaScript `split` on the complement runs followed by discarding empty
pieces: `s.split(/[^a-z0-9]+/i).filter(t => t.length > 0)` is
`runsBy Char.isAlphanum`, and `s.split(/\s+/)` on a trimmed string is
`runsBy (fun c => !jsIsWs c)`. -/
def runsByF (keep : Char → Bool) : ℕ → List Char → List (List Char)
  | 0, _ => []
  | _, [] => []
  | fuel + 1, c :: cs =>
    if keep c then
      (c :: cs.takeWhile keep) :: runsByF keep fuel (cs.dropWhile keep)
    else
      runsByF keep fuel cs

/-- `runsBy keep s` with the structural fuel `s.length`; one unit of fuel
is spent per character examined, so the fuel never runs out. -/
def runsBy (keep : Char → Bool) (s : List Char) : List (List Char) :=
  runsByF keep s.length s

/-- Tokenization of the normalized search string, from `getAddresses`:
`normalizedSearch.split(/[^a-z0-9]+/i).map(t => t.trim()).filter(t =>
t.length > 0)` (the inner `trim` is a no-op on alphanumeric pieces). -/
def tokenizeQuery (s : List Char) : List (List Char) :=
  runsBy Char.isAlphanum s

/-- JavaScript numbers as far as this service distinguishes them: a finite
value (modelled exactly as a rational), the two infinities, or NaN. -/
inductive JsNum where
  | finite : ℚ → JsNum
  | posInf : JsNum
  | negInf : JsNum
  | nan : JsNum
deriving DecidableEq

/-- `Number.isFinite` / the class-validator `IsNumber` finiteness test
(`allowNaN: false, allowInfinity: false` are its defaults). -/
def JsNum.isFinite : JsNum → Bool
  | .finite _ => true
  | _ => false

/-- Value of a digit string, most significant first. -/
def digitsVal (ds : List Char) : ℕ :=
  ds.foldl (fun acc c => 10 * acc + (c.toNat - 48)) 0

/-- ECMAScript `parseFloat`: skip leading whitespace, read an optional
sign, then the longest prefix that is `Infinity` or a decimal literal
(digits, optional fraction, optional exponent); `none` models NaN (no
valid numeric prefix).  Trailing garbage after a valid prefix is ignored,
which is why e.g. `parseFloat("4)") = 4`. -/
def jsParseFloat (s : List Char) : Option JsNum :=
  let s1 := s.dropWhile jsIsWs
  let signAndRest : Bool × List Char :=
    match s1 with
    | '-' :: rest => (true, rest)
    | '+' :: rest => (false, rest)
    | _ => (false, s1)
  let neg := signAndRest.1
  let s2 := signAndRest.2
  if ['I', 'n', 'f', 'i', 'n', 'i', 't', 'y'].isPrefixOf s2 then
    some (if neg then .negInf else .posInf)
  else
    let intPart := s2.takeWhile Char.isDigit
    let r1 := s2.dropWhile Char.isDigit
    let fracAndRest : List Char × List Char :=
      match r1 with
      | '.' :: rest => (rest.takeWhile Char.isDigit, rest.dropWhile Char.isDigit)
      | _ => ([], r1)
    let fracPart := fracAndRest.1
    let r2 := fracAndRest.2
    if intPart = [] && fracPart = [] then
      none
    else
      let expVal : ℤ :=
        match r2 with
        | e :: rest =>
          if e = 'e' || e = 'E' then
            let eSignAndRest : Bool × List Char :=
              match rest with
              | '-' :: rr => (true, rr)
              | '+' :: rr => (false, rr)
              | _ => (false, rest)
            let eds := eSignAndRest.2.takeWhile Char.isDigit
            if eds = [] then 0
            else if eSignAndRest.1 then -(digitsVal eds : ℤ) else (digitsVal eds : ℤ)
          else 0
        | [] => 0
      let mant : ℚ :=
        (digitsVal intPart : ℚ) + (digitsVal fracPart : ℚ) / (10 : ℚ) ^ fracPart.length
      some (.finite ((if neg then (-1 : ℚ) else 1) * mant * (10 : ℚ) ^ expVal))

/-- Character bigrams of a string, in order, as in `compareTwoStrings`
(`substring(i, i + 2)` for `i < length - 1`). -/
def bigramsL : List Char → List (Char × Char)
  | a :: b :: rest => (a, b) :: bigramsL (b :: rest)
  | _ => []

/-- The bigram-matching loop of `compareTwoStrings`: for each bigram of the
second list, if it still occurs in the (multiset of) bigrams of the first,
remove one occurrence and count a hit.  The result is the size of the
multiset intersection. -/
def interCount : List (Char × Char) → List (Char × Char) → ℕ
  | _, [] => 0
  | bag, g :: gs =>
    if g ∈ bag then interCount (bag.erase g) gs + 1 else interCount bag gs

/-- Body of `compareTwoStrings` after whitespace stripping: identical
strings score 1 (this covers two empty strings); a string shorter than two
characters scores 0 against anything different; otherwise twice the number
of shared bigrams divided by the total number of bigrams. -/
def diceBody (f s : List Char) : ℚ :=
  if f = s then 1
  else if f.length < 2 || s.length < 2 then 0
  else
    (2 * (interCount (bigramsL f) (bigramsL s) : ℚ)) /
      ((f.length : ℚ) + (s.length : ℚ) - 2)

/-- The `string-similarity` package's `compareTwoStrings` (Sørensen–Dice
coefficient): both strings are first stripped of all whitespace
(`replace(/\s+/g, '')`), then compared by `diceBody`. -/
def compareTwoStrings (first second : List Char) : ℚ :=
  diceBody (stripWs first) (stripWs second)

/-- JavaScript `Math.max` on two numbers, with the decidable comparison
spelled out so that concrete scores evaluate inside the kernel. -/
def jsMax (a b : ℚ) : ℚ :=
  if a ≤ b then b else a

/-- JavaScript `Math.min` on two numbers. -/
def jsMin (a b : ℚ) : ℚ :=
  if a ≤ b then a else b

/-- The persisted `properties` sub-document of an address record
(`map-address.schema.ts`); every field is free text. -/
structure AddressProps where
  hash : List Char
  number : List Char
  street : List Char
  unit : List Char
  city : List Char
  district : List Char
  region : List Char
  postcode : List Char
  id : List Char
deriving DecidableEq

/-- A stored address document as selected by
`.select('_id type geometry properties')`: `oid` is the numeric value of
the MongoDB ObjectId `_id`, `ftype` the stored `type` field, `geometry`
the point coordinates `[longitude, latitude]`. -/
structure MapAddressDoc where
  oid : ℕ
  ftype : List Char
  geometry : ℚ × ℚ
  properties : AddressProps
deriving DecidableEq

/-- JavaScript `Array.prototype.join(' ')`. -/
def joinSp : List (List Char) → List Char
  | [] => []
  | [p] => p
  | p :: q :: ps => p ++ ' ' :: joinSp (q :: ps)

/-- The four fields searched by the free-text path, in the order of the
`fields` array of `getAddresses`: street, number, postcode, city. -/
def searchFieldVals (d : MapAddressDoc) : List (List Char) :=
  [d.properties.street, d.properties.number, d.properties.postcode,
    d.properties.city]

/-- The relevance score of one candidate, from the scoring step of
`getAddresses`.  `ns` is `normalizedSearch` (the trimmed lowercased query).
`combined` is `[street, number, postcode, city].filter(Boolean).join(' ')
.toLowerCase()` (the `filter(Boolean)` drops empty strings); the field
weights are street 1.0, city 0.9, postcode 0.8, number 0.5; the prefix
boost of 0.15 applies when any field value starts with the full query;
the final score is capped at 1. -/
def scoreDoc (ns : List Char) (d : MapAddressDoc) : ℚ :=
  let street := toLowerL d.properties.street
  let number := toLowerL d.properties.number
  let postcode := toLowerL d.properties.postcode
  let city := toLowerL d.properties.city
  let combined :=
    toLowerL (joinSp (([street, number, postcode, city]).filter (fun t => t ≠ [])))
  let combinedScore := compareTwoStrings ns combined
  let maxFieldScore :=
    jsMax (jsMax (jsMax (compareTwoStrings ns street * 1)
                  (compareTwoStrings ns city * (9 / 10)))
             (compareTwoStrings ns postcode * (4 / 5)))
        (compareTwoStrings ns number * (1 / 2))
  let startsWithAny :=
    ([street, number, postcode, city]).any (fun t => List.isPrefixOf ns t)
  let boost : ℚ := if startsWithAny then 3 / 20 else 0
  jsMin 1 (jsMax combinedScore maxFieldScore + boost)

/-- The score as worded by the specification and claim C1: identical to
`scoreDoc` except that the concatenated string is the space-join of all
four lowercased field values, with no `filter(Boolean)` and no outer
re-lowercasing.  Stated from the claim for comparison with the code's
`scoreDoc`. -/
def claimScore (ns : List Char) (d : MapAddressDoc) : ℚ :=
  let street := toLowerL d.properties.street
  let number := toLowerL d.properties.number
  let postcode := toLowerL d.properties.postcode
  let city := toLowerL d.properties.city
  let sCombined := compareTwoStrings ns (joinSp [street, number, postcode, city])
  let sFields :=
    jsMax (jsMax (jsMax (compareTwoStrings ns street * 1)
                  (compareTwoStrings ns city * (9 / 10)))
             (compareTwoStrings ns postcode * (4 / 5)))
        (compareTwoStrings ns number * (1 / 2))
  let startsWithAny :=
    ([street, number, postcode, city]).any (fun t => List.isPrefixOf ns t)
  let boost : ℚ := if startsWithAny then 3 / 20 else 0
  jsMin 1 (jsMax sCombined sFields + boost)

/-- A feature of the free-text search response: the stored document spread
together with the computed relevance score (`{ ...addr, score }`). -/
structure ScoredFeature where
  doc : MapAddressDoc
  score : ℚ
deriving DecidableEq

/-- Descending-score order used by `scored.sort((a, b) => b.score - a.score)`. -/
def scoreGeRel (a b : ScoredFeature) : Prop :=
  b.score ≤ a.score

instance : DecidableRel scoreGeRel :=
  fun a b => inferInstanceAs (Decidable (b.score ≤ a.score))

instance : IsTotal ScoredFeature scoreGeRel :=
  ⟨fun a b => le_total b.score a.score⟩

instance : IsTrans ScoredFeature scoreGeRel :=
  ⟨fun _ _ _ h₁ h₂ => le_trans h₂ h₁⟩

/-- The sort step of `getAddresses`: a stable sort descending by score
(JavaScript `Array.prototype.sort` is stable; insertion sort with a
non-strict comparison reproduces it). -/
def sortByScoreDesc (l : List ScoredFeature) : List ScoredFeature :=
  List.insertionSort scoreGeRel l

/-- Threshold selection of `getAddresses`: after sorting, if the best score
is at least 0.75 keep only the candidates scoring at least
`max(0.7, bestScore - 0.08)`, then truncate to `limit`; otherwise truncate
the full sorted list to `limit`. -/
def rankScored (limit : ℕ) (scored : List ScoredFeature) : List ScoredFeature :=
  match sortByScoreDesc scored with
  | [] => []
  | best :: rest =>
    if (3 : ℚ) / 4 ≤ best.score then
      ((best :: rest).filter
        (fun s => jsMax ((7 : ℚ) / 10) (best.score - 2 / 25) ≤ s.score)).take limit
    else (best :: rest).take limit

/-- Whether one token matches a document: `new RegExp(escapeRegExp(t), 'i')`
tested against each of the four search fields is a case-insensitive
substring containment (the escaping makes the token a literal pattern). -/
def tokenMatchesDoc (t : List Char) (d : MapAddressDoc) : Bool :=
  (searchFieldVals d).any fun f => decide (toLowerL t <:+: toLowerL f)

/-- The MongoDB query object built by `getAddresses`: an `$and` over the
tokens of per-token `$or`s over the four fields, or `{ $or: [] }` when the
token list is empty. -/
inductive SearchQueryRep where
  | andTokens (tokens : List (List Char))
  | emptyOr
deriving DecidableEq

/-- The candidate fetch
`find(query).select(...).limit(Math.max(limit * 2, 100)).lean()`:
`none` models the MongoDB server error raised for `{ $or: [] }` (`$or`
must be a non-empty array); otherwise the matching documents in store
order, truncated to the fetch limit. -/
def mongoFindSearch (rep : SearchQueryRep) (limitN : ℕ)
    (store : List MapAddressDoc) : Option (List MapAddressDoc) :=
  match rep with
  | .emptyOr => none
  | .andTokens toks =>
    some ((store.filter (fun d => toks.all fun t => tokenMatchesDoc t d)).take limitN)

/-- Outcome of one free-text search request: the query given to the store
fetch, if a fetch was issued at all, and the response features (`none`
models a thrown error). -/
structure SearchOutcome where
  issuedQuery : Option SearchQueryRep
  response : Option (List ScoredFeature)
deriving DecidableEq

/-- The free-text search `getAddresses(searchQuery, limit = 100)`:
early-return on a missing or whitespace-only query; tokenize the
normalized query; fetch a bounded candidate pool with the token
conjunction query; score, sort, band-filter and truncate. -/
def getAddresses (store : List MapAddressDoc) (searchQuery : Option (List Char))
    (limit : ℕ := 100) : SearchOutcome :=
  match searchQuery with
  | none => ⟨none, some []⟩
  | some q =>
    if jsTrim q = [] then ⟨none, some []⟩
    else
      let ns := toLowerL (jsTrim q)
      let tokens := tokenizeQuery ns
      let rep := if tokens = [] then SearchQueryRep.emptyOr
                 else SearchQueryRep.andTokens tokens
      match mongoFindSearch rep (max (limit * 2) 100) store with
      | none => ⟨some rep, none⟩
      | some candidates =>
        if candidates = [] then ⟨some rep, some []⟩
        else
          let scored := candidates.map fun d => ScoredFeature.mk d (scoreDoc ns d)
          ⟨some rep, some (rankScored limit scored)⟩

/-- Leftmost-first, non-overlapping regex `split` against a separator
recognizer `sep` (which recognizes the separator at the head of the string
and returns the remainder), accumulating the current piece in reverse.
Structural fuel: every separator recognized by `parenSepRun` consumes at
least one character, so fuel `s.length` never runs out. -/
def splitOnSepByF (sep : List Char → Option (List Char)) :
    ℕ → List Char → List Char → List (List Char)
  | 0, acc, _ => [acc.reverse]
  | _, acc, [] => [acc.reverse]
  | fuel + 1, acc, c :: rest =>
    match sep (c :: rest) with
    | some rest2 => acc.reverse :: splitOnSepByF sep fuel [] rest2
    | none => splitOnSepByF sep fuel (c :: acc) rest

/-- Separator recognition shared by `splitRings` (pattern
`/\\)\\s*,\\s*\\(/`, one closing and one opening parenthesis) and the
MULTIPOLYGON polygon split (pattern `/\\)\\)\\s*,\\s*\\(\\(/`, two of
each): `k1` closing parentheses, optional whitespace, a comma, optional
whitespace, `k2` opening parentheses. -/
def parenSepRun (k1 k2 : ℕ) (s : List Char) : Option (List Char) :=
  if s.take k1 = List.replicate k1 ')' then
    match (s.drop k1).dropWhile jsIsWs with
    | ',' :: rest2 =>
      if (rest2.dropWhile jsIsWs).take k2 = List.replicate k2 '(' then
        some ((rest2.dropWhile jsIsWs).drop k2)
      else none
    | _ => none
  else none

/-- `splitRings(ringsStr)`: split on `')' ws* ',' ws* '('`. -/
def splitRings (s : List Char) : List (List Char) :=
  splitOnSepByF (parenSepRun 1 1) s.length [] s

/-- The polygon-chunk split of the MULTIPOLYGON branch
(`polysStr.split(/\\)\\)\\s*,\\s*\\(\\(/)`). -/
def splitPolys (s : List Char) : List (List Char) :=
  splitOnSepByF (parenSepRun 2 2) s.length [] s

/-- Parsed WKT geometry: the `PolygonDto` / `MultiPolygonDto` value built
by `parseWktRegion`. -/
inductive RegionGeom where
  | polygon (rings : List (List (JsNum × JsNum)))
  | multiPolygon (polygons : List (List (List (JsNum × JsNum))))
deriving DecidableEq

/-- One coordinate pair of `parseCoordinates`: trim, split on whitespace,
take the first two tokens as `lonStr`/`latStr` and `parseFloat` them; a NaN
on either is a hard parse failure carrying the offending pair.  Fewer than
two tokens means `latStr` (or both) is undefined or empty, whose
`parseFloat` is NaN, hence also a failure. -/
def parseWktPair (pair : List Char) : Except (List Char) (JsNum × JsNum) :=
  match runsBy (fun c => !jsIsWs c) (jsTrim pair) with
  | lonStr :: latStr :: _ =>
    match jsParseFloat lonStr, jsParseFloat latStr with
    | some lon, some lat => .ok (lon, lat)
    | _, _ => .error pair
  | _ => .error pair

/-- A JavaScript `Array.prototype.map` whose callback may throw: the first
failure aborts and propagates. -/
def exceptMapM {α β γ : Type} (f : α → Except γ β) : List α → Except γ (List β)
  | [] => .ok []
  | a :: as =>
    match f a with
    | .error e => .error e
    | .ok b =>
      match exceptMapM f as with
      | .error e => .error e
      | .ok bs => .ok (b :: bs)

/-- `parseCoordinates(coordsStr)`: split on commas (`/\s*,\s*/`, whose
whitespace absorption is subsumed by the per-pair trim) and parse each
pair; the first failing pair aborts the whole parse. -/
def parseCoordinates (coordsStr : List Char) :
    Except (List Char) (List (JsNum × JsNum)) :=
  exceptMapM parseWktPair (coordsStr.splitOn ',')

/-- The replace of `/^\s*POLYGON\s*\(\(/i` (resp. with `keywordLen` 12 and
three parentheses for MULTIPOLYGON) on the trimmed input: the caller has
established the case-insensitive keyword prefix; if optional whitespace
and `nOpen` opening parentheses follow it, drop all of that, else leave
the string unchanged (a JavaScript `replace` with no match is the
identity). -/
def stripKeywordParens (keywordLen nOpen : ℕ) (trimmed : List Char) : List Char :=
  let after := (trimmed.drop keywordLen).dropWhile jsIsWs
  if after.take nOpen = List.replicate nOpen '(' then after.drop nOpen
  else trimmed

/-- The replace of `/\)\)\s*$/` (resp. three parentheses): drop `nClose`
closing parentheses and any following whitespace at the end of the string,
when present; otherwise the identity. -/
def stripCloseParens (nClose : ℕ) (l : List Char) : List Char :=
  let r := l.reverse.dropWhile jsIsWs
  if r.take nClose = List.replicate nClose ')' then (r.drop nClose).reverse
  else l

/-- `parseWktRegion(wkt)`: trim, dispatch on the case-insensitive leading
keyword, strip the outer parentheses when present, split into rings (and,
for MULTIPOLYGON, polygon chunks first) and parse every ring's coordinate
list.  The error carries the message string (for coordinate failures, the
offending pair).  Parenthesization is never checked for balance. -/
def parseWktRegion (wkt : List Char) : Except (List Char) RegionGeom :=
  let trimmed := jsTrim wkt
  let upper := toUpperL trimmed
  if ("POLYGON".toList).isPrefixOf upper then
    let ringsStr := stripCloseParens 2 (stripKeywordParens 7 2 trimmed)
    match exceptMapM parseCoordinates (splitRings ringsStr) with
    | .error m => .error m
    | .ok rings => .ok (.polygon rings)
  else if ("MULTIPOLYGON".toList).isPrefixOf upper then
    let polysStr := stripCloseParens 3 (stripKeywordParens 12 3 trimmed)
    match exceptMapM (fun polyStr => exceptMapM parseCoordinates (splitRings polyStr))
        (splitPolys polysStr) with
    | .error m => .error m
    | .ok polys => .ok (.multiPolygon polys)
  else
    .error ("Unsupported WKT type. Use POLYGON or MULTIPOLYGON.".toList)

/-- Balanced parenthesization of a string, stated from claim C5's error
condition: every prefix has at least as many opening as closing
parentheses and the totals agree. -/
def parenBalanced (s : List Char) : Bool :=
  (s.foldl
    (fun st c =>
      match st with
      | none => none
      | some depth =>
        if c = '(' then some (depth + 1)
        else if c = ')' then (if depth = 0 then none else some (depth - 1))
        else some depth)
    (some 0)) = some 0

/-- The request body of the POST region endpoint
(`WithinRegionRequestDto`). -/
structure WithinRegionRequest where
  searchRegion : Option (List Char)
  limit : Option ℕ
  batchSize : Option ℕ
  cursor : Option (List Char)
deriving DecidableEq

/-- Errors of `getAddressesWithinPolygon`; each is re-thrown wrapped in
`Failed to fetch addresses within region`. -/
inductive PageError where
  | noRegion
  | wktError (msg : List Char)
  | invalidCursor
deriving DecidableEq

/-- The batch response (`MapAddressBatchResponseDto`): the page of
features, the continuation cursor (the numeric value of the last `_id`)
and the has-more flag. -/
structure BatchResult where
  features : List MapAddressDoc
  nextCursor : Option ℕ
  hasMore : Bool
deriving DecidableEq

/-- Outcome of one region request: whether the store fetch was reached,
and the result or error. -/
structure PageOutcome where
  fetched : Bool
  result : Except PageError BatchResult

/-- `isHexDigit` over the ASCII ranges accepted in an ObjectId hex
string. -/
def isHexDigitB (c : Char) : Bool :=
  c.isDigit || ('a' ≤ c && c ≤ 'f') || ('A' ≤ c && c ≤ 'F')

/-- Numeric value of a hex digit. -/
def hexDigitVal (c : Char) : ℕ :=
  if c.isDigit then c.toNat - 48
  else if 'a' ≤ c && c ≤ 'f' then c.toNat - 87
  else c.toNat - 55

/-- Decoding of a cursor string to a record key.  Mongoose
`Types.ObjectId.isValid` accepts a 24-character hex string, or any
12-character string (taken as 12 raw bytes); everything else is invalid
(`none`). -/
def objectIdOfString (s : List Char) : Option ℕ :=
  if s.length = 24 && s.all isHexDigitB then
    some (s.foldl (fun acc c => 16 * acc + hexDigitVal c) 0)
  else if s.length = 12 then
    some (s.foldl (fun acc c => 256 * acc + c.toNat) 0)
  else none

/-- Ascending `_id` order of `.sort({ _id: 1 })`. -/
def oidLeRel (a b : MapAddressDoc) : Prop :=
  a.oid ≤ b.oid

instance : DecidableRel oidLeRel :=
  fun a b => inferInstanceAs (Decidable (a.oid ≤ b.oid))

instance : IsTotal MapAddressDoc oidLeRel :=
  ⟨fun a b => le_total a.oid b.oid⟩

instance : IsTrans MapAddressDoc oidLeRel :=
  ⟨fun _ _ _ h₁ h₂ => le_trans h₁ h₂⟩

/-- `.sort({ _id: 1 })` on a fetched list. -/
def sortByOidAsc (l : List MapAddressDoc) : List MapAddressDoc :=
  List.insertionSort oidLeRel l

/-- `.limit(n)` of a MongoDB/mongoose query: a limit of 0 means no limit
(the whole result set is returned); a positive limit truncates. -/
def mongoLimit {α : Type} (n : ℕ) (l : List α) : List α :=
  if n = 0 then l else l.take n

/-- `getAddressesWithinPolygon(body)`: compute the batch size
(`body.batchSize ?? body.limit ?? 500`; JavaScript `??` keeps an explicit
0), parse the WKT region, gate on the cursor (the truthiness test
`if (body.cursor)` skips both a missing and an empty-string cursor; a
non-empty cursor must be a valid ObjectId string or the request fails
before the fetch), then fetch the page: filter by containment
(`$geoWithin`, supplied by the store and abstracted as the `inRegion`
predicate) and by `_id > cursor`, sort ascending by `_id`, and apply
`.limit(batchSize)` with MongoDB's semantics (`mongoLimit`: a batch size
of 0 means no limit).  `nextCursor` is the `_id` of the last returned
document (or null on an empty page) and `hasMore` is whether the page
length equals the batch size exactly. -/
def getAddressesWithinPolygon (inRegion : RegionGeom → MapAddressDoc → Bool)
    (store : List MapAddressDoc) (body : WithinRegionRequest) : PageOutcome :=
  let batchSize := body.batchSize.getD (body.limit.getD 500)
  match body.searchRegion with
  | none => ⟨false, .error .noRegion⟩
  | some wkt =>
    match parseWktRegion wkt with
    | .error m => ⟨false, .error (.wktError m)⟩
    | .ok region =>
      let cursorGate : Except PageError (Option ℕ) :=
        match body.cursor with
        | none => .ok none
        | some c =>
          if c = [] then .ok none
          else
            match objectIdOfString c with
            | none => .error .invalidCursor
            | some k => .ok (some k)
      match cursorGate with
      | .error e => ⟨false, .error e⟩
      | .ok cur =>
        let base := store.filter (inRegion region)
        let gated :=
          match cur with
          | none => base
          | some k => base.filter (fun d => k < d.oid)
        let docs := mongoLimit batchSize (sortByOidAsc gated)
        let last := docs.getLast?.map (fun d => d.oid)
        ⟨true, .ok ⟨docs, last, docs.length == batchSize⟩⟩

/-- The optional categorical filters (`MapAddressesFilterDto`). -/
structure MapAddressesFilter where
  city : Option (List (List Char))
  street : Option (List (List Char))
  postcode : Option (List (List Char))
  district : Option (List (List Char))
  region : Option (List (List Char))
  number : Option (List Char)
deriving DecidableEq

/-- The MongoDB query object built by `getAddressesNearPoint`: the `$near`
geometry with `$maxDistance`, plus for each present non-empty filter list
the `$in` list of lowercased case-insensitive patterns, and for a truthy
`number` its case-insensitive pattern. -/
structure NearQuery where
  point : List JsNum
  maxDistance : ℚ
  city : Option (List (List Char))
  street : Option (List (List Char))
  postcode : Option (List (List Char))
  district : Option (List (List Char))
  region : Option (List (List Char))
  number : Option (List Char)
deriving DecidableEq

/-- One optional list filter of `getAddressesNearPoint`:
`if (f.x && f.x.length > 0)` keeps the lowercased patterns, else the field
stays absent from the query. -/
def nearListFilter (v : Option (List (List Char))) : Option (List (List Char)) :=
  match v with
  | some l => if 0 < l.length then some (l.map toLowerL) else none
  | none => none

/-- Query construction of `getAddressesNearPoint` for a given point,
distance bound and optional filters. -/
def buildNearQuery (point : List JsNum) (maxDistance : ℚ)
    (filters : Option MapAddressesFilter) : NearQuery :=
  match filters with
  | none => ⟨point, maxDistance, none, none, none, none, none, none⟩
  | some f =>
    ⟨point, maxDistance,
      nearListFilter f.city, nearListFilter f.street, nearListFilter f.postcode,
      nearListFilter f.district, nearListFilter f.region,
      match f.number with
      | some n => if n = [] then none else some n
      | none => none⟩

/-- The request body of the near-point endpoint (`NearPointRequestDto`):
`point` is absent or a list of JavaScript numbers, `maxDistance` optional,
`filters` optional. -/
structure NearPointRequest where
  point : Option (List JsNum)
  maxDistance : Option ℚ
  filters : Option MapAddressesFilter
deriving DecidableEq

/-- Outcome of one near-point request: the query issued to the store, if
any, and the features or the validation error (modelled as `Except Unit`).
The store's `$near` evaluation is abstracted as the `nearPred` predicate
argument of `handleNearPointRequest`. -/
structure NearOutcome where
  issuedQuery : Option NearQuery
  result : Except Unit (List MapAddressDoc)

/-- Modelled from the spec: the request-validation step for proximity
requests.  The enforcing NestJS ValidationPipe wiring (`main.ts`) is not
among the sources; `NearPointRequestDto` declares `@IsArray()` and
`@IsNumber({}, { each: true })` on `point` (class-validator rejects NaN
and infinities by default, and a missing property fails `@IsArray`), and
the spec states "proximity with a non-finite or missing point coordinate
pair is rejected before querying (ValidationError)". -/
def validNearPointRequest (req : NearPointRequest) : Bool :=
  match req.point with
  | none => false
  | some pts => pts.all JsNum.isFinite

/-- The near-point request pipeline: reject invalid points before any
store access, else run `getAddressesNearPoint(point, maxDistance = 1000,
filters)`, whose store fetch filters by the built query. -/
def handleNearPointRequest (nearPred : NearQuery → MapAddressDoc → Bool)
    (store : List MapAddressDoc) (req : NearPointRequest) : NearOutcome :=
  match req.point with
  | none => ⟨none, .error ()⟩
  | some pts =>
    if pts.all JsNum.isFinite then
      let q := buildNearQuery pts (req.maxDistance.getD 1000) req.filters
      ⟨some q, .ok (store.filter (nearPred q))⟩
    else ⟨none, .error ()⟩

/-- Concrete sample documents used to instantiate witnesses. -/
def docA : MapAddressDoc :=
  ⟨1, "Feature".toList, (68 / 10, 533 / 10),
    ⟨"h1".toList, "4".toList, "Oranjeweg".toList, [], "Appingedam".toList,
      [], [], "9901 CK".toList, "id1".toList⟩⟩

/-- A second sample document. -/
def docB : MapAddressDoc :=
  ⟨2, "Feature".toList, (0, 0),
    ⟨"h2".toList, "7".toList, "Main Street".toList, [], "Amsterdam".toList,
      [], [], "1012".toList, "id2".toList⟩⟩

/-- A third sample document. -/
def docC : MapAddressDoc :=
  ⟨3, "Feature".toList, (1, 1),
    ⟨"h3".toList, "9".toList, "B Road".toList, [], "Utrecht".toList,
      [], [], "3500".toList, "id3".toList⟩⟩

/-- Claim-side restatement: the input has an accepted leading keyword when
the trimmed input starts, case-insensitively, with POLYGON or
MULTIPOLYGON. -/
def wktKeywordOk (wkt : List Char) : Bool :=
  ("POLYGON".toList).isPrefixOf (toUpperL (jsTrim wkt)) ||
    ("MULTIPOLYGON".toList).isPrefixOf (toUpperL (jsTrim wkt))

/-- All coordinate-pair strings that `parseWktRegion` submits to
`parseWktPair`, obtained by the same stripping and splitting stages. -/
def wktCoordPieces (wkt : List Char) : List (List Char) :=
  let trimmed := jsTrim wkt
  let upper := toUpperL trimmed
  if ("POLYGON".toList).isPrefixOf upper then
    (splitRings (stripCloseParens 2 (stripKeywordParens 7 2 trimmed))).flatMap
      (fun r => r.splitOn ',')
  else if ("MULTIPOLYGON".toList).isPrefixOf upper then
    (splitPolys (stripCloseParens 3 (stripKeywordParens 12 3 trimmed))).flatMap
      (fun polyStr => (splitRings polyStr).flatMap (fun r => r.splitOn ','))
  else []

/-! ## Theorems -/

theorem jsMax_eq_max (a b : ℚ) : jsMax a b = max a b := by
  simp [jsMax, max_def]

theorem jsMin_eq_min (a b : ℚ) : jsMin a b = min a b := by
  simp [jsMin, min_def]

theorem toNat_ofNat_of_lt {n : ℕ} (h : n < 55296) : (Char.ofNat n).toNat = n := by
  have hv : n.isValidChar := Or.inl h
  unfold Char.ofNat
  rw [dif_pos hv]
  rfl

theorem toLower_toLower (c : Char) :
    Char.toLower (Char.toLower c) = Char.toLower c := by
  unfold Char.toLower
  by_cases h : c.toNat ≥ 65 ∧ c.toNat ≤ 90
  · have hv : (Char.ofNat (c.toNat + 32)).toNat = c.toNat + 32 :=
      toNat_ofNat_of_lt (by omega)
    rw [if_pos h, hv]
    have h2 : ¬(c.toNat + 32 ≥ 65 ∧ c.toNat + 32 ≤ 90) := by omega
    rw [if_neg h2]
  · rw [if_neg h, if_neg h]

theorem toLowerL_idem (s : List Char) : toLowerL (toLowerL s) = toLowerL s := by
  simp [toLowerL, List.map_map, Function.comp_def, toLower_toLower]

theorem toLowerL_joinSp : ∀ ps : List (List Char),
    toLowerL (joinSp ps) = joinSp (ps.map toLowerL)
  | [] => rfl
  | [p] => rfl
  | p :: q :: ps => by
    have ih := toLowerL_joinSp (q :: ps)
    simp only [joinSp, List.map_cons] at ih ⊢
    simp only [toLowerL, List.map_append, List.map_cons] at ih ⊢
    rw [show Char.toLower ' ' = ' ' from by decide]
    rw [ih]

theorem stripWs_cons_sp (l : List Char) : stripWs (' ' :: l) = stripWs l := by
  simp [stripWs, List.filter_cons, show jsIsWs ' ' = true from by decide]

theorem stripWs_joinSp : ∀ ps : List (List Char),
    stripWs (joinSp ps) = (ps.map stripWs).flatten
  | [] => rfl
  | [p] => by simp [joinSp]
  | p :: q :: ps => by
    have ih := stripWs_joinSp (q :: ps)
    simp only [joinSp, List.map_cons, List.flatten_cons] at ih ⊢
    rw [show stripWs (p ++ ' ' :: joinSp (q :: ps)) =
          stripWs p ++ stripWs (' ' :: joinSp (q :: ps)) from by
        simp [stripWs, List.filter_append]]
    rw [stripWs_cons_sp, ih]

theorem flatten_map_filter_ne_nil (f : List Char → List Char)
    (hf : f [] = []) : ∀ ps : List (List Char),
    ((ps.filter (fun t => t ≠ [])).map f).flatten = (ps.map f).flatten
  | [] => rfl
  | p :: ps => by
    have ih := flatten_map_filter_ne_nil f hf ps
    by_cases hp : p = []
    · subst hp
      have h1 : List.filter (fun t => decide (t ≠ [])) ([] :: ps) =
          List.filter (fun t => decide (t ≠ [])) ps := by
        rw [List.filter_cons_of_neg]
        simp
      rw [h1, ih]
      simp [hf]
    · have h1 : List.filter (fun t => decide (t ≠ [])) (p :: ps) =
          p :: List.filter (fun t => decide (t ≠ [])) ps := by
        rw [List.filter_cons_of_pos]
        simp [hp]
      rw [h1]
      simp only [List.map_cons, List.flatten_cons, ih]

theorem bigramsL_length : ∀ l : List Char, (bigramsL l).length = l.length - 1
  | [] => rfl
  | [_] => rfl
  | _ :: b :: rest => by
    have ih := bigramsL_length (b :: rest)
    simp only [bigramsL, List.length_cons] at ih ⊢
    omega

theorem interCount_le_right (bag l : List (Char × Char)) :
    interCount bag l ≤ l.length := by
  induction l generalizing bag with
  | nil => simp [interCount]
  | cons g gs ih =>
    simp only [interCount, List.length_cons]
    split
    · exact Nat.add_le_add_right (ih _) 1
    · exact Nat.le_succ_of_le (ih bag)

theorem interCount_le_left (bag l : List (Char × Char)) :
    interCount bag l ≤ bag.length := by
  induction l generalizing bag with
  | nil => simp [interCount]
  | cons g gs ih =>
    simp only [interCount]
    split
    · rename_i hmem
      have hlen : (bag.erase g).length = bag.length - 1 :=
        List.length_erase_of_mem hmem
      have hpos : 1 ≤ bag.length := List.length_pos.mpr (List.ne_nil_of_mem hmem)
      have := ih (bag.erase g)
      omega
    · exact ih bag

theorem diceBody_nonneg (f s : List Char) : 0 ≤ diceBody f s := by
  unfold diceBody
  split
  · norm_num
  · split
    · norm_num
    · rename_i hne hlen
      simp only [Bool.or_eq_true, decide_eq_true_eq, not_or, Nat.not_lt] at hlen
      apply div_nonneg
      · positivity
      · have c1 : (2 : ℚ) ≤ (f.length : ℚ) := by exact_mod_cast hlen.1
        have c2 : (2 : ℚ) ≤ (s.length : ℚ) := by exact_mod_cast hlen.2
        linarith

theorem diceBody_le_one (f s : List Char) : diceBody f s ≤ 1 := by
  unfold diceBody
  split
  · norm_num
  · split
    · norm_num
    · rename_i hne hlen
      simp only [Bool.or_eq_true, decide_eq_true_eq, not_or, Nat.not_lt] at hlen
      have h1 := hlen.1
      have h2 := hlen.2
      have hbound : 2 * interCount (bigramsL f) (bigramsL s) + 2 ≤
          f.length + s.length := by
        have hl := interCount_le_left (bigramsL f) (bigramsL s)
        have hr := interCount_le_right (bigramsL f) (bigramsL s)
        have hbf := bigramsL_length f
        have hbs := bigramsL_length s
        omega
      rw [div_le_one (by
        have c1 : (2 : ℚ) ≤ (f.length : ℚ) := by exact_mod_cast h1
        have c2 : (2 : ℚ) ≤ (s.length : ℚ) := by exact_mod_cast h2
        linarith)]
      have hc : ((2 * interCount (bigramsL f) (bigramsL s) + 2 : ℕ) : ℚ) ≤
          ((f.length + s.length : ℕ) : ℚ) := by exact_mod_cast hbound
      push_cast at hc
      linarith

theorem compareTwoStrings_nonneg (a b : List Char) :
    0 ≤ compareTwoStrings a b :=
  diceBody_nonneg _ _

theorem compareTwoStrings_le_one (a b : List Char) :
    compareTwoStrings a b ≤ 1 :=
  diceBody_le_one _ _

/-- `compareTwoStrings` only looks at its arguments through `stripWs`. -/
theorem compareTwoStrings_congr (q a b : List Char)
    (h : stripWs a = stripWs b) :
    compareTwoStrings q a = compareTwoStrings q b := by
  unfold compareTwoStrings
  rw [h]

theorem cts_joinSp_filter_lowered (q : List Char) (parts : List (List Char))
    (hp : ∀ p ∈ parts, toLowerL p = p) :
    compareTwoStrings q (toLowerL (joinSp (parts.filter (fun t => t ≠ [])))) =
      compareTwoStrings q (joinSp parts) := by
  apply compareTwoStrings_congr
  have h1 : toLowerL (joinSp (parts.filter (fun t => t ≠ []))) =
      joinSp (parts.filter (fun t => t ≠ [])) := by
    rw [toLowerL_joinSp]
    congr 1
    have h2 : (parts.filter (fun t => t ≠ [])).map toLowerL =
        (parts.filter (fun t => t ≠ [])).map id :=
      List.map_congr_left (fun x hx => hp x (List.mem_of_mem_filter hx))
    rw [h2, List.map_id]
  rw [h1, stripWs_joinSp, stripWs_joinSp]
  exact flatten_map_filter_ne_nil stripWs rfl parts


theorem scoreDoc_eq_claimScore (ns : List Char) (d : MapAddressDoc) :
    scoreDoc ns d = claimScore ns d := by
  have h := cts_joinSp_filter_lowered ns
    [toLowerL d.properties.street, toLowerL d.properties.number,
     toLowerL d.properties.postcode, toLowerL d.properties.city]
    (by
      intro p hp
      simp only [List.mem_cons, List.not_mem_nil, or_false] at hp
      rcases hp with h | h | h | h <;> subst h <;> exact toLowerL_idem _)
  simp only [scoreDoc, claimScore]
  rw [h]

theorem scoreDoc_nonneg (ns : List Char) (d : MapAddressDoc) :
    0 ≤ scoreDoc ns d := by
  simp only [scoreDoc, jsMin_eq_min, jsMax_eq_max]
  refine le_min (by norm_num) (add_nonneg ?_ ?_)
  · exact le_trans (compareTwoStrings_nonneg _ _) (le_max_left _ _)
  · split <;> norm_num

theorem scoreDoc_le_one (ns : List Char) (d : MapAddressDoc) :
    scoreDoc ns d ≤ 1 := by
  simp only [scoreDoc, jsMin_eq_min]
  exact min_le_left _ _

/-- **C1.** For every candidate address scored by the free-text search, the
score equals `min(1, max(s_combined, s_fields) + boost)`, where
`s_combined` is the normalized lexical similarity between the lowercased
trimmed query and the space-joined concatenation of the candidate's
lowercased street, number, postcode and city (`claimScore` states exactly
that wording), `s_fields` is the maximum of the per-field similarities
weighted street 1.0, city 0.9, postcode 0.8, number 0.5, and the boost is
0.15 exactly when one of those lowercased field values starts with the
full lowercased query; in particular the score always lies in [0, 1]. -/
theorem C1_score_formula (q : List Char) (d : MapAddressDoc) :
    scoreDoc (toLowerL (jsTrim q)) d = claimScore (toLowerL (jsTrim q)) d ∧
    0 ≤ scoreDoc (toLowerL (jsTrim q)) d ∧
    scoreDoc (toLowerL (jsTrim q)) d ≤ 1 :=
  ⟨scoreDoc_eq_claimScore _ d, scoreDoc_nonneg _ d, scoreDoc_le_one _ d⟩

/-- **C2.** For every non-empty scored candidate pool, the ranking stage of
the free-text search sorts the pool descending by score (stably); writing
`best` for the head of the sorted pool (which is a maximal-score element),
the result equals the sorted pool filtered to the band
`score ≥ max(0.70, best − 0.08)` and truncated to `limit` when
`best ≥ 0.75`, and the full sorted pool truncated to `limit` otherwise;
the result never exceeds `limit` elements and, whenever `limit ≥ 1`, is
non-empty (the top candidate always survives the band filter). -/
theorem C2_ranking_policy (scored : List ScoredFeature) (limit : ℕ)
    (hne : scored ≠ []) :
    ∃ best rest,
      sortByScoreDesc scored = best :: rest ∧
      List.Sorted scoreGeRel (best :: rest) ∧
      (best :: rest).Perm scored ∧
      (∀ x ∈ scored, x.score ≤ best.score) ∧
      rankScored limit scored =
        (if (3 : ℚ) / 4 ≤ best.score then
          ((best :: rest).filter
            (fun s => jsMax ((7 : ℚ) / 10) (best.score - 2 / 25) ≤ s.score)).take limit
        else (best :: rest).take limit) ∧
      (rankScored limit scored).length ≤ limit ∧
      (1 ≤ limit → rankScored limit scored ≠ []) := by
  have hperm : (sortByScoreDesc scored).Perm scored :=
    List.perm_insertionSort _ _
  have hsorted : List.Sorted scoreGeRel (sortByScoreDesc scored) :=
    List.sorted_insertionSort _ _
  cases hs : sortByScoreDesc scored with
  | nil =>
    rw [hs] at hperm
    exact absurd hperm.symm.eq_nil hne
  | cons best rest =>
    rw [hs] at hperm hsorted
    have hrank : rankScored limit scored =
        (if (3 : ℚ) / 4 ≤ best.score then
          ((best :: rest).filter
            (fun s => jsMax ((7 : ℚ) / 10) (best.score - 2 / 25) ≤ s.score)).take limit
        else (best :: rest).take limit) := by
      simp only [rankScored, hs]
    have hmax : ∀ x ∈ scored, x.score ≤ best.score := by
      intro x hx
      have hx2 : x ∈ best :: rest := hperm.mem_iff.mpr hx
      rcases List.mem_cons.mp hx2 with h | h
      · subst h; exact le_refl _
      · exact List.rel_of_sorted_cons hsorted x h
    refine ⟨best, rest, rfl, hsorted, hperm, hmax, hrank, ?_, ?_⟩
    · rw [hrank]
      split
      · exact List.length_take_le _ _
      · exact List.length_take_le _ _
    · intro hlim
      obtain ⟨k, rfl⟩ : ∃ k, limit = k + 1 := ⟨limit - 1, by omega⟩
      rw [hrank]
      split
      · rename_i hbest
        have hpb : decide
            (jsMax ((7 : ℚ) / 10) (best.score - 2 / 25) ≤ best.score) = true := by
          simp only [decide_eq_true_eq, jsMax_eq_max]
          apply max_le
          · linarith
          · linarith
        rw [show List.filter
              (fun s => decide (jsMax ((7 : ℚ) / 10) (best.score - 2 / 25) ≤ s.score))
              (best :: rest) =
            best :: List.filter
              (fun s => decide (jsMax ((7 : ℚ) / 10) (best.score - 2 / 25) ≤ s.score))
              rest from List.filter_cons_of_pos hpb]
        rw [List.take_succ_cons]
        exact List.cons_ne_nil _ _
      · rw [List.take_succ_cons]
        exact List.cons_ne_nil _ _

/-- Witness for C2 at the one-element pool `[⟨docA, 4/5⟩]` and limit 1. -/
theorem C2_ranking_policy_witness :
    ([⟨docA, 4 / 5⟩] : List ScoredFeature) ≠ [] ∧
    (∃ best rest,
      sortByScoreDesc [⟨docA, 4 / 5⟩] = best :: rest ∧
      List.Sorted scoreGeRel (best :: rest) ∧
      (best :: rest).Perm [⟨docA, 4 / 5⟩] ∧
      (∀ x ∈ ([⟨docA, 4 / 5⟩] : List ScoredFeature), x.score ≤ best.score) ∧
      rankScored 1 [⟨docA, 4 / 5⟩] =
        (if (3 : ℚ) / 4 ≤ best.score then
          ((best :: rest).filter
            (fun s => jsMax ((7 : ℚ) / 10) (best.score - 2 / 25) ≤ s.score)).take 1
        else (best :: rest).take 1) ∧
      (rankScored 1 [⟨docA, 4 / 5⟩]).length ≤ 1 ∧
      (1 ≤ 1 → rankScored 1 [⟨docA, 4 / 5⟩] ≠ [])) :=
  ⟨List.cons_ne_nil _ _,
    C2_ranking_policy [⟨docA, 4 / 5⟩] 1 (List.cons_ne_nil _ _)⟩

theorem mongoLimit_sublist {α : Type} (n : ℕ) (l : List α) :
    (mongoLimit n l).Sublist l := by
  unfold mongoLimit
  split
  · exact List.Sublist.refl l
  · exact List.take_sublist n l

theorem mongoLimit_length_le {α : Type} {n : ℕ} (hn : n ≠ 0) (l : List α) :
    (mongoLimit n l).length ≤ n := by
  unfold mongoLimit
  rw [if_neg hn]
  exact List.length_take_le _ _

theorem withinPolygon_result_ok (inRegion : RegionGeom → MapAddressDoc → Bool)
    (store : List MapAddressDoc) (body : WithinRegionRequest) (br : BatchResult)
    (h : (getAddressesWithinPolygon inRegion store body).result = .ok br) :
    ∃ gated : List MapAddressDoc,
      br.features =
        mongoLimit (body.batchSize.getD (body.limit.getD 500))
          (sortByOidAsc gated) ∧
      br.nextCursor = br.features.getLast?.map (fun d => d.oid) ∧
      br.hasMore =
        (br.features.length == body.batchSize.getD (body.limit.getD 500)) ∧
      (∀ c k, body.cursor = some c → objectIdOfString c = some k →
        ∀ d ∈ gated, k < d.oid) := by
  obtain ⟨sr, lim, bs, cur⟩ := body
  rcases sr with _ | wkt
  · simp [getAddressesWithinPolygon] at h
  · rcases hpw : parseWktRegion wkt with m | region
    · simp [getAddressesWithinPolygon, hpw] at h
    · rcases cur with _ | c
      · simp only [getAddressesWithinPolygon, hpw] at h
        obtain rfl := Except.ok.inj h
        refine ⟨store.filter (inRegion region), rfl, rfl, rfl, ?_⟩
        intro c k hc
        exact absurd hc (by simp)
      · by_cases hce : c = []
        · subst hce
          simp only [getAddressesWithinPolygon, hpw, if_pos rfl] at h
          obtain rfl := Except.ok.inj h
          refine ⟨store.filter (inRegion region), rfl, rfl, rfl, ?_⟩
          intro c' k hc' hoid
          obtain rfl : c' = [] := by injection hc' with h2; exact h2.symm
          exact absurd hoid (by simp [objectIdOfString])
        · rcases hoid2 : objectIdOfString c with _ | k2
          · simp [getAddressesWithinPolygon, hpw, hce, hoid2] at h
          · simp only [getAddressesWithinPolygon, hpw, hce, hoid2, if_neg hce] at h
            obtain rfl := Except.ok.inj h
            refine ⟨(store.filter (inRegion region)).filter
              (fun d => decide (k2 < d.oid)), rfl, rfl, rfl, ?_⟩
            intro c' k' hc' hoid'
            obtain rfl : c' = c := by injection hc' with h2; exact h2.symm
            rw [hoid2] at hoid'
            obtain rfl : k' = k2 := by injection hoid' with h2; exact h2.symm
            intro d hd
            have hmem := (List.mem_filter.mp hd).2
            simpa using hmem

/-- **C3 (amended).** For every containment (within-polygon) request that
succeeds, the returned page is ordered ascending by the record key `_id`,
contains only records with key strictly greater than the cursor's decoded
key when a cursor that decodes to a key was supplied, and — whenever the
batch size is non-zero — has at most `batchSize` records, where
`batchSize` is the request's `batchSize` if present, else its `limit` if
present, else 500.  A batch size of 0 survives the `??` chain and is
passed to MongoDB's `limit(0)`, which means no limit, so the whole
matching set is returned. -/
theorem C3_pagination_fetch (inRegion : RegionGeom → MapAddressDoc → Bool)
    (store : List MapAddressDoc) (body : WithinRegionRequest) (br : BatchResult)
    (h : (getAddressesWithinPolygon inRegion store body).result = .ok br) :
    List.Sorted oidLeRel br.features ∧
    (body.batchSize.getD (body.limit.getD 500) ≠ 0 →
      br.features.length ≤ body.batchSize.getD (body.limit.getD 500)) ∧
    (∀ c k, body.cursor = some c → objectIdOfString c = some k →
      ∀ d ∈ br.features, k < d.oid) := by
  obtain ⟨gated, hfeat, _, _, hcur⟩ := withinPolygon_result_ok inRegion store body br h
  refine ⟨?_, ?_, ?_⟩
  · rw [hfeat]
    exact List.Pairwise.sublist (mongoLimit_sublist _ _)
      (List.sorted_insertionSort oidLeRel gated)
  · intro hbz
    rw [hfeat]
    exact mongoLimit_length_le hbz _
  · intro c k hc hk d hd
    refine hcur c k hc hk d ?_
    rw [hfeat] at hd
    exact (List.perm_insertionSort oidLeRel gated).mem_iff.mp
      (List.Sublist.mem hd (mongoLimit_sublist _ _))

/-- Witness for C3 (amended) on a three-document store, batch size 2, no
cursor. -/
theorem C3_pagination_fetch_witness :
    ((getAddressesWithinPolygon (fun _ _ => true) [docB, docC, docA]
        ⟨some "POLYGON((0 0, 1 1, 0 0))".toList, none, some 2, none⟩).result =
      .ok ⟨[docA, docB], some 2, true⟩) ∧
    (List.Sorted oidLeRel ([docA, docB] : List MapAddressDoc) ∧
      (((some 2 : Option ℕ).getD ((none : Option ℕ).getD 500)) ≠ 0 →
        ([docA, docB] : List MapAddressDoc).length ≤
          ((some 2 : Option ℕ).getD ((none : Option ℕ).getD 500))) ∧
      (∀ c k, (none : Option (List Char)) = some c → objectIdOfString c = some k →
        ∀ d ∈ ([docA, docB] : List MapAddressDoc), k < d.oid)) :=
  ⟨by with_unfolding_all rfl,
    C3_pagination_fetch (fun _ _ => true) [docB, docC, docA]
      ⟨some "POLYGON((0 0, 1 1, 0 0))".toList, none, some 2, none⟩
      ⟨[docA, docB], some 2, true⟩ (by with_unfolding_all rfl)⟩

/-- Counterexample to C3 as stated: with `batchSize = 0` (accepted by the
DTO, and kept by the `??` chain since JavaScript `0 ?? x` is 0), the fetch
runs MongoDB's `limit(0)`, which means no limit: over a one-document store
the page holds 1 record, exceeding the claimed bound of at most
`batchSize = 0` records. -/
theorem C3_batchsize_zero_counterexample :
    (getAddressesWithinPolygon (fun _ _ => true) [docA]
      ⟨some ("POLYGON((0 0, 1 1, 0 0))".toList), none, some 0, none⟩).result =
      .ok ⟨[docA], some 1, false⟩ ∧
    ¬(([docA] : List MapAddressDoc).length ≤
      ((⟨some ("POLYGON((0 0, 1 1, 0 0))".toList), none, some 0,
          none⟩ : WithinRegionRequest).batchSize.getD
        ((⟨some ("POLYGON((0 0, 1 1, 0 0))".toList), none, some 0,
          none⟩ : WithinRegionRequest).limit.getD 500))) := by
  constructor
  · with_unfolding_all rfl
  · decide

/-- **C4.** For every page returned by the containment request,
`nextCursor` equals the record key of the last returned record and is null
exactly when the page is empty, and `hasMore` is true if and only if the
number of returned records equals exactly `batchSize`. -/
theorem C4_next_cursor_has_more (inRegion : RegionGeom → MapAddressDoc → Bool)
    (store : List MapAddressDoc) (body : WithinRegionRequest) (br : BatchResult)
    (h : (getAddressesWithinPolygon inRegion store body).result = .ok br) :
    br.nextCursor = br.features.getLast?.map (fun d => d.oid) ∧
    (br.nextCursor = none ↔ br.features = []) ∧
    (br.hasMore = true ↔
      br.features.length = body.batchSize.getD (body.limit.getD 500)) := by
  obtain ⟨gated, _, hnext, hmore, _⟩ := withinPolygon_result_ok inRegion store body br h
  refine ⟨hnext, ?_, ?_⟩
  · rw [hnext, Option.map_eq_none', List.getLast?_eq_none_iff]
  · rw [hmore, beq_iff_eq]

/-- Witness for C4 on a three-document store, batch size 2, no cursor. -/
theorem C4_next_cursor_has_more_witness :
    ((getAddressesWithinPolygon (fun _ _ => true) [docB, docC, docA]
        ⟨some "POLYGON((0 0, 1 1, 0 0))".toList, none, some 2, none⟩).result =
      .ok ⟨[docA, docB], some 2, true⟩) ∧
    ((some 2 : Option ℕ) =
        ([docA, docB] : List MapAddressDoc).getLast?.map (fun d => d.oid) ∧
      ((some 2 : Option ℕ) = none ↔ ([docA, docB] : List MapAddressDoc) = []) ∧
      (true = true ↔ ([docA, docB] : List MapAddressDoc).length =
        ((some 2 : Option ℕ).getD ((none : Option ℕ).getD 500)))) :=
  ⟨by with_unfolding_all rfl,
    C4_next_cursor_has_more (fun _ _ => true) [docB, docC, docA]
      ⟨some "POLYGON((0 0, 1 1, 0 0))".toList, none, some 2, none⟩
      ⟨[docA, docB], some 2, true⟩ (by with_unfolding_all rfl)⟩

theorem exceptMapM_isOk {α β γ : Type} (f : α → Except γ β) :
    ∀ l : List α, (exceptMapM f l).isOk = l.all (fun a => (f a).isOk)
  | [] => rfl
  | a :: as => by
    simp only [exceptMapM, List.all_cons]
    rcases hfa : f a with e | b
    · rfl
    · have ih := exceptMapM_isOk f as
      rcases hms : exceptMapM f as with e2 | bs
      · rw [hms] at ih
        show false = ((Except.ok b : Except γ β).isOk && as.all fun x => (f x).isOk)
        rw [show (Except.ok b : Except γ β).isOk = true from rfl, Bool.true_and]
        exact ih
      · rw [hms] at ih
        show true = ((Except.ok b : Except γ β).isOk && as.all fun x => (f x).isOk)
        rw [show (Except.ok b : Except γ β).isOk = true from rfl, Bool.true_and]
        exact ih

theorem parseCoordinates_isOk (r : List Char) :
    (parseCoordinates r).isOk =
      (r.splitOn ',').all (fun p => (parseWktPair p).isOk) :=
  exceptMapM_isOk parseWktPair _

/-- **C5 (amended).** `parseWktRegion` succeeds exactly when the trimmed
input begins case-insensitively with POLYGON or MULTIPOLYGON and every
coordinate-pair string produced by its stripping/splitting stages parses
under `parseWktPair` (first two whitespace tokens with numeric `parseFloat`
prefixes); unbalanced parenthesization by itself is never a failure. -/
theorem C5_parse_error_characterization (wkt : List Char) :
    (parseWktRegion wkt).isOk =
      (wktKeywordOk wkt &&
        (wktCoordPieces wkt).all (fun pair => (parseWktPair pair).isOk)) := by
  simp only [parseWktRegion, wktKeywordOk, wktCoordPieces]
  cases hp : ("POLYGON".toList).isPrefixOf (toUpperL (jsTrim wkt)) with
  | true =>
    simp only [hp, Bool.true_or, Bool.true_and, if_true]
    have hAll : (exceptMapM parseCoordinates
          (splitRings (stripCloseParens 2 (stripKeywordParens 7 2 (jsTrim wkt))))).isOk
        = ((splitRings
            (stripCloseParens 2 (stripKeywordParens 7 2 (jsTrim wkt)))).flatMap
              (fun r => r.splitOn ',')).all
            (fun pair => (parseWktPair pair).isOk) := by
      rw [exceptMapM_isOk, List.all_flatMap]
      simp only [parseCoordinates_isOk]
    rw [← hAll]
    rcases hE : exceptMapM parseCoordinates
        (splitRings (stripCloseParens 2 (stripKeywordParens 7 2 (jsTrim wkt))))
        with m | rings <;> rfl
  | false =>
    cases hmp : ("MULTIPOLYGON".toList).isPrefixOf (toUpperL (jsTrim wkt)) with
    | true =>
      simp only [hp, hmp, Bool.false_or, Bool.true_and, Bool.false_eq_true,
        if_false, if_true]
      have hAll : (exceptMapM
            (fun polyStr => exceptMapM parseCoordinates (splitRings polyStr))
            (splitPolys (stripCloseParens 3 (stripKeywordParens 12 3 (jsTrim wkt))))).isOk
          = ((splitPolys
              (stripCloseParens 3 (stripKeywordParens 12 3 (jsTrim wkt)))).flatMap
                (fun polyStr => (splitRings polyStr).flatMap
                  (fun r => r.splitOn ','))).all
              (fun pair => (parseWktPair pair).isOk) := by
        simp only [exceptMapM_isOk, List.all_flatMap, parseCoordinates_isOk]
      rw [← hAll]
      rcases hE : exceptMapM
          (fun polyStr => exceptMapM parseCoordinates (splitRings polyStr))
          (splitPolys (stripCloseParens 3 (stripKeywordParens 12 3 (jsTrim wkt))))
          with m | polys <;> rfl
    | false =>
      simp only [hp, hmp, Bool.false_or, Bool.false_and, Bool.false_eq_true,
        if_false]
      rfl

/-- Counterexample to C5 as stated: the input `POLYGON((1 2, 3 4)` has
unbalanced parenthesization, which the claim says must be a parse error,
yet `parseWktRegion` succeeds on it (returning the polygon with points
(1, 2) and (3, 4): the dangling `)` is swallowed by `parseFloat`'s
tolerance for trailing garbage, and balance is never checked). -/
theorem C5_unbalanced_counterexample :
    parenBalanced ("POLYGON((1 2, 3 4)".toList) = false ∧
    (parseWktRegion ("POLYGON((1 2, 3 4)".toList)).isOk = true := by
  constructor
  · with_unfolding_all rfl
  · with_unfolding_all rfl

/-- **C6 (amended).** A missing, empty or all-whitespace query returns an
empty FeatureCollection successfully and performs no store fetch; but a
non-whitespace query whose tokenization is empty (e.g. only punctuation)
does not short-circuit: it issues a store fetch with the empty-disjunction
query `{ $or: [] }` (which MongoDB rejects, so the request errors rather
than returning an empty collection). -/
theorem C6_zero_token_behavior (store : List MapAddressDoc) (q : List Char)
    (limit : ℕ) (hq : tokenizeQuery (toLowerL (jsTrim q)) = []) :
    (jsTrim q = [] →
      getAddresses store (some q) limit = ⟨none, some []⟩) ∧
    (jsTrim q ≠ [] →
      getAddresses store (some q) limit =
        ⟨some SearchQueryRep.emptyOr, none⟩) ∧
    getAddresses store none limit = ⟨none, some []⟩ := by
  refine ⟨?_, ?_, rfl⟩
  · intro h
    simp only [getAddresses, h, if_pos]
  · intro h
    simp only [getAddresses, if_neg h, hq, if_pos]
    rfl

/-- Witness for C6 (amended) at the punctuation-only query `!!!`. -/
theorem C6_zero_token_behavior_witness :
    tokenizeQuery (toLowerL (jsTrim ("!!!".toList))) = [] ∧
    ((jsTrim ("!!!".toList) = [] →
      getAddresses [docA] (some ("!!!".toList)) 100 = ⟨none, some []⟩) ∧
    (jsTrim ("!!!".toList) ≠ [] →
      getAddresses [docA] (some ("!!!".toList)) 100 =
        ⟨some SearchQueryRep.emptyOr, none⟩) ∧
    getAddresses [docA] (none : Option (List Char)) 100 = ⟨none, some []⟩) :=
  ⟨by decide, C6_zero_token_behavior [docA] ("!!!".toList) 100 (by decide)⟩

/-- Counterexample to C6 as stated: the query `!!!` is not all-whitespace,
tokenizes to zero tokens, and the claim says the search must return an
empty FeatureCollection successfully with no store fetch; instead the
code issues a store fetch with the query `{ $or: [] }` and the request
fails (the response is an error, not an empty collection). -/
theorem C6_counterexample :
    jsTrim ("!!!".toList) ≠ [] ∧
    tokenizeQuery (toLowerL (jsTrim ("!!!".toList))) = [] ∧
    (getAddresses [docA] (some ("!!!".toList)) 100).issuedQuery =
      some SearchQueryRep.emptyOr ∧
    (getAddresses [docA] (some ("!!!".toList)) 100).response = none := by
  refine ⟨by decide, by decide, ?_, ?_⟩
  · with_unfolding_all rfl
  · with_unfolding_all rfl

/-- **C7.** For every free-text query with at least one token, the fetch is
issued with the conjunction-over-tokens of disjunction-over-fields
case-insensitive substring query, and the candidate pool it returns has at
most `max(2 × limit, 100)` records, each matching every token in at least
one of street, number, postcode, city. -/
theorem C7_candidate_pool (store : List MapAddressDoc) (q : List Char)
    (limit : ℕ) (ht : tokenizeQuery (toLowerL (jsTrim q)) ≠ []) :
    (getAddresses store (some q) limit).issuedQuery =
      some (SearchQueryRep.andTokens (tokenizeQuery (toLowerL (jsTrim q)))) ∧
    ∃ pool,
      mongoFindSearch (SearchQueryRep.andTokens (tokenizeQuery (toLowerL (jsTrim q))))
          (max (limit * 2) 100) store = some pool ∧
      pool.length ≤ max (limit * 2) 100 ∧
      (∀ d ∈ pool, ∀ t ∈ tokenizeQuery (toLowerL (jsTrim q)),
        ∃ f ∈ searchFieldVals d, (toLowerL t) <:+: (toLowerL f)) := by
  have hq : jsTrim q ≠ [] := by
    intro h
    apply ht
    rw [h]
    rfl
  constructor
  · simp only [getAddresses, if_neg hq, if_neg ht]
    by_cases hpool : (store.filter
        (fun d => (tokenizeQuery (toLowerL (jsTrim q))).all
          fun t => tokenMatchesDoc t d)).take (max (limit * 2) 100) = [] <;>
      simp [mongoFindSearch, hpool]
  · refine ⟨(store.filter
      (fun d => (tokenizeQuery (toLowerL (jsTrim q))).all
        fun t => tokenMatchesDoc t d)).take (max (limit * 2) 100), rfl, ?_, ?_⟩
    · exact List.length_take_le _ _
    · intro d hd t htok
      have hdf := List.Sublist.mem hd (List.take_sublist _ _)
      have hall := (List.mem_filter.mp hdf).2
      rw [List.all_eq_true] at hall
      have hmatch := hall t htok
      rw [tokenMatchesDoc, List.any_eq_true] at hmatch
      obtain ⟨f, hf, hdec⟩ := hmatch
      exact ⟨f, hf, of_decide_eq_true hdec⟩

/-- Witness for C7 at the query `main st` over a one-document store. -/
theorem C7_candidate_pool_witness :
    tokenizeQuery (toLowerL (jsTrim ("main st".toList))) ≠ [] ∧
    ((getAddresses [docB] (some ("main st".toList)) 5).issuedQuery =
      some (SearchQueryRep.andTokens
        (tokenizeQuery (toLowerL (jsTrim ("main st".toList))))) ∧
    ∃ pool,
      mongoFindSearch (SearchQueryRep.andTokens
          (tokenizeQuery (toLowerL (jsTrim ("main st".toList)))))
          (max (5 * 2) 100) [docB] = some pool ∧
      pool.length ≤ max (5 * 2) 100 ∧
      (∀ d ∈ pool, ∀ t ∈ tokenizeQuery (toLowerL (jsTrim ("main st".toList))),
        ∃ f ∈ searchFieldVals d, (toLowerL t) <:+: (toLowerL f))) :=
  ⟨by decide, C7_candidate_pool [docB] ("main st".toList) 5 (by decide)⟩

/-- **C8 (amended).** For every containment request that supplies a
non-empty cursor string on a region that parses, if the cursor does not
decode to a valid record key the request fails with the invalid-cursor
error before any store fetch; an empty-string cursor, however, is falsy in
the `if (body.cursor)` gate and is treated as if no cursor were supplied. -/
theorem C8_invalid_cursor_rejected (inRegion : RegionGeom → MapAddressDoc → Bool)
    (store : List MapAddressDoc) (body : WithinRegionRequest)
    (wkt c : List Char) (region : RegionGeom)
    (hw : body.searchRegion = some wkt) (hr : parseWktRegion wkt = .ok region)
    (hc : body.cursor = some c) (hne : c ≠ [])
    (hinv : objectIdOfString c = none) :
    (getAddressesWithinPolygon inRegion store body).fetched = false ∧
    (getAddressesWithinPolygon inRegion store body).result =
      .error .invalidCursor := by
  obtain ⟨sr, lim, bs, cur⟩ := body
  simp only at hw hc
  subst hw
  subst hc
  constructor <;> simp [getAddressesWithinPolygon, hr, if_neg hne, hinv]

/-- Witness for C8 (amended) at the undecodable non-empty cursor `zz`. -/
theorem C8_invalid_cursor_rejected_witness :
    ((⟨some ("POLYGON((0 0, 1 1, 0 0))".toList), none, some 5,
        some ("zz".toList)⟩ : WithinRegionRequest).searchRegion =
      some ("POLYGON((0 0, 1 1, 0 0))".toList)) ∧
    parseWktRegion ("POLYGON((0 0, 1 1, 0 0))".toList) =
      .ok (.polygon [[(.finite 0, .finite 0), (.finite 1, .finite 1),
        (.finite 0, .finite 0)]]) ∧
    ((⟨some ("POLYGON((0 0, 1 1, 0 0))".toList), none, some 5,
        some ("zz".toList)⟩ : WithinRegionRequest).cursor = some ("zz".toList)) ∧
    ("zz".toList ≠ []) ∧
    objectIdOfString ("zz".toList) = none ∧
    ((getAddressesWithinPolygon (fun _ _ => true) [docA]
        ⟨some ("POLYGON((0 0, 1 1, 0 0))".toList), none, some 5,
          some ("zz".toList)⟩).fetched = false ∧
      (getAddressesWithinPolygon (fun _ _ => true) [docA]
        ⟨some ("POLYGON((0 0, 1 1, 0 0))".toList), none, some 5,
          some ("zz".toList)⟩).result = .error .invalidCursor) :=
  ⟨rfl, by with_unfolding_all rfl, rfl, by decide, by decide,
    C8_invalid_cursor_rejected (fun _ _ => true) [docA]
      ⟨some ("POLYGON((0 0, 1 1, 0 0))".toList), none, some 5,
        some ("zz".toList)⟩
      ("POLYGON((0 0, 1 1, 0 0))".toList) ("zz".toList)
      (.polygon [[(.finite 0, .finite 0), (.finite 1, .finite 1),
        (.finite 0, .finite 0)]])
      rfl (by with_unfolding_all rfl) rfl (by decide) (by decide)⟩

/-- Counterexample to C8 as stated: the empty string is a supplied cursor
that does not decode to a valid record key, yet the request does not fail:
the falsy check `if (body.cursor)` skips the validation entirely, the
store fetch is performed and the page is returned. -/
theorem C8_empty_cursor_counterexample :
    objectIdOfString [] = none ∧
    (getAddressesWithinPolygon (fun _ _ => true) [docA]
      ⟨some ("POLYGON((0 0, 1 1, 0 0))".toList), none, some 5,
        some []⟩).fetched = true ∧
    (getAddressesWithinPolygon (fun _ _ => true) [docA]
      ⟨some ("POLYGON((0 0, 1 1, 0 0))".toList), none, some 5,
        some []⟩).result = .ok ⟨[docA], some 1, false⟩ := by
  refine ⟨rfl, ?_, ?_⟩
  · with_unfolding_all rfl
  · with_unfolding_all rfl

/-- **C9.** A proximity request whose point is missing or contains a
non-finite coordinate is rejected with the validation error before any
store query is issued (no query object is built, no fetch happens); and a
valid request with `maxDistance` unspecified issues its query with the
default of 1000 meters. -/
theorem C9_near_point_validation (nearPred : NearQuery → MapAddressDoc → Bool)
    (store : List MapAddressDoc) (req : NearPointRequest) :
    (validNearPointRequest req = false →
      (handleNearPointRequest nearPred store req).issuedQuery = none ∧
      (handleNearPointRequest nearPred store req).result = .error ()) ∧
    (req.point = none → validNearPointRequest req = false) ∧
    (∀ pts x, req.point = some pts → x ∈ pts → x.isFinite = false →
      validNearPointRequest req = false) ∧
    (validNearPointRequest req = true → req.maxDistance = none →
      ∃ qu, (handleNearPointRequest nearPred store req).issuedQuery = some qu ∧
        qu.maxDistance = 1000) := by
  obtain ⟨pt, md, fl⟩ := req
  refine ⟨?_, ?_, ?_, ?_⟩
  · intro hv
    rcases pt with _ | pts
    · exact ⟨rfl, rfl⟩
    · simp only [validNearPointRequest] at hv
      simp only [handleNearPointRequest, hv, if_false]
      exact ⟨rfl, rfl⟩
  · intro hp
    simp only at hp
    subst hp
    rfl
  · intro pts x hp hx hfin
    simp only at hp
    subst hp
    simp only [validNearPointRequest]
    cases hab : pts.all JsNum.isFinite with
    | false => rfl
    | true =>
      rw [List.all_eq_true] at hab
      rw [hab x hx] at hfin
      cases hfin
  · intro hv hmd
    rcases pt with _ | pts
    · exact absurd hv (by simp [validNearPointRequest])
    · simp only [validNearPointRequest] at hv
      simp only at hmd
      subst hmd
      refine ⟨buildNearQuery pts ((none : Option ℚ).getD 1000) fl, ?_, ?_⟩
      · simp only [handleNearPointRequest, hv, if_true]
      · rcases fl with _ | f <;> rfl

/-- Witness for C9: a NaN coordinate is rejected with no query issued, and
a valid request without `maxDistance` defaults to 1000. -/
theorem C9_near_point_validation_witness :
    validNearPointRequest ⟨some [.finite 1, .nan], none, none⟩ = false ∧
    ((handleNearPointRequest (fun _ _ => true) [docA]
        ⟨some [.finite 1, .nan], none, none⟩).issuedQuery = none ∧
      (handleNearPointRequest (fun _ _ => true) [docA]
        ⟨some [.finite 1, .nan], none, none⟩).result = .error ()) ∧
    validNearPointRequest ⟨some [.finite 1, .finite 2], none, none⟩ = true ∧
    (∃ qu, (handleNearPointRequest (fun _ _ => true) [docA]
        ⟨some [.finite 1, .finite 2], none, none⟩).issuedQuery = some qu ∧
        qu.maxDistance = 1000) :=
  ⟨by decide,
    (C9_near_point_validation (fun _ _ => true) [docA]
      ⟨some [.finite 1, .nan], none, none⟩).1 (by decide),
    by decide,
    (C9_near_point_validation (fun _ _ => true) [docA]
      ⟨some [.finite 1, .finite 2], none, none⟩).2.2.2 (by decide) rfl⟩

theorem mem_of_mem_rankScored {limit : ℕ} {scored : List ScoredFeature}
    {f : ScoredFeature} (hf : f ∈ rankScored limit scored) : f ∈ scored := by
  have hperm : (sortByScoreDesc scored).Perm scored :=
    List.perm_insertionSort _ _
  unfold rankScored at hf
  cases hE : sortByScoreDesc scored with
  | nil =>
    rw [hE] at hf
    exact absurd hf (List.not_mem_nil f)
  | cons best rest =>
    rw [hE] at hf
    rw [hE] at hperm
    dsimp only at hf
    by_cases hb : (3 : ℚ) / 4 ≤ best.score
    · rw [if_pos hb] at hf
      have h1 := List.Sublist.mem hf (List.take_sublist _ _)
      have h2 := List.Sublist.mem h1 (List.filter_sublist _)
      exact hperm.mem_iff.mp h2
    · rw [if_neg hb] at hf
      have h1 := List.Sublist.mem hf (List.take_sublist _ _)
      exact hperm.mem_iff.mp h1

/-- **C10.** Every feature of a successful free-text search response
carries, beyond the stored document fields, the computed numeric `score`
field, whose value is the relevance score of that document for the
normalized query and lies in [0, 1] — the score is thereby exposed in the
public response although the documented feature shape has no such field. -/
theorem C10_score_exposed (store : List MapAddressDoc) (q : List Char)
    (limit : ℕ) (fc : List ScoredFeature)
    (h : (getAddresses store (some q) limit).response = some fc) :
    ∀ f ∈ fc, f.score = scoreDoc (toLowerL (jsTrim q)) f.doc ∧
      0 ≤ f.score ∧ f.score ≤ 1 := by
  by_cases hq : jsTrim q = []
  · simp only [getAddresses, hq, if_pos, Option.some.injEq] at h
    subst h
    intro f hf
    exact absurd hf (List.not_mem_nil f)
  · by_cases ht : tokenizeQuery (toLowerL (jsTrim q)) = []
    · simp only [getAddresses, if_neg hq, ht, if_pos] at h
      exact absurd h (by simp [mongoFindSearch])
    · simp only [getAddresses, if_neg hq, if_neg ht, mongoFindSearch] at h
      by_cases hp : (store.filter
          (fun d => (tokenizeQuery (toLowerL (jsTrim q))).all
            fun t => tokenMatchesDoc t d)).take (max (limit * 2) 100) = []
      · rw [if_pos hp] at h
        simp only [Option.some.injEq] at h
        subst h
        intro f hf
        exact absurd hf (List.not_mem_nil f)
      · rw [if_neg hp] at h
        simp only [Option.some.injEq] at h
        subst h
        intro f hf
        have hmem := mem_of_mem_rankScored hf
        obtain ⟨d, _, rfl⟩ := List.mem_map.mp hmem
        exact ⟨rfl, scoreDoc_nonneg _ _, scoreDoc_le_one _ _⟩

/-- Witness for C10 at the query `main st` over the one-document store
`[docB]`: the response feature carries the score 121/140. -/
theorem C10_score_exposed_witness :
    (getAddresses [docB] (some ("main st".toList)) 5).response =
      some [⟨docB, 121 / 140⟩] ∧
    ∀ f ∈ ([⟨docB, 121 / 140⟩] : List ScoredFeature),
      f.score = scoreDoc (toLowerL (jsTrim ("main st".toList))) f.doc ∧
      0 ≤ f.score ∧ f.score ≤ 1 :=
  ⟨by with_unfolding_all decide,
    C10_score_exposed [docB] ("main st".toList) 5 [⟨docB, 121 / 140⟩]
      (by with_unfolding_all decide)⟩

end MapAddresses
